import Mathlib

/-!
Shallow embedding of the NEAR donation contract
(`src/contract-ts/src/contract.ts`, first revision in the file; the second
revision is identical on the fragments verified here except where noted).

Modelling conventions:
* `bigint` yoctoNEAR amounts are `Nat` (attached deposits are unsigned
  128-bit on NEAR and never negative; no operation here overflows or
  underflows: the only subtraction `toTransfer -= STORAGE_COST` is guarded
  by `donationAmount > STORAGE_COST`).
* `near-sdk-js` `UnorderedMap` is an insertion-ordered association list:
  `get` is lookup by key, `set` updates an existing key in place or appends
  a new key at the end, `keys({start, limit})` enumerates in that stable
  order, `clear` empties it.  The contract never removes a single key, so
  enumeration order is always first-insertion order.
* A contract call that throws (a failed `assert` from `src/utils.ts`, or the
  `privateFunction: true` guard of the SDK) aborts the transaction with no
  state mutation; we model it as `Except.error e`, which carries no
  successor state: the caller keeps the pre-call state.
* `near.sender == near.contractName` (the guard of `change_beneficiary` and
  `reset_donations`; the `privateFunction` decorator of the SDK enforces the
  same identity check) is modelled by passing `sender` and `contractName` as
  explicit arguments.
-/

/-- Errors a contract call can abort with: the failed storage-cost `assert`
in `donate`, and the owner check of the private functions. -/
inductive Err where
  | insufficientForStorage
  | unauthorized
deriving DecidableEq, Repr

/-- The donor ledger: `UnorderedMap<bigint>` as an insertion-ordered
association list from account id to cumulative donated amount. -/
abbrev Ledger := List (String × Nat)

/-- Model of `UnorderedMap.get`: the value stored at `k`, if present. -/
def mapGet (m : Ledger) (k : String) : Option Nat :=
  (m.find? (fun e => e.1 = k)).map Prod.snd

/-- Model of `UnorderedMap.set`: update the value at `k` in place if present,
otherwise append `(k, v)` at the end (new donors enumerate last). -/
def mapSet (m : Ledger) (k : String) (v : Nat) : Ledger :=
  match m with
  | [] => [(k, v)]
  | e :: rest => if e.1 = k then (k, v) :: rest else e :: mapSet rest k v

/-- Model of `UnorderedMap.keys({start, limit})`: at most `limit` keys from
position `start` of the stable enumeration order. -/
def mapKeys (m : Ledger) (start limit : Nat) : List String :=
  ((m.map Prod.fst).drop start).take limit

/-- Persistent contract state: the three descriptive fields and the donor
ledger (`class DonationContract`). -/
structure State where
  beneficiary : String
  beneficiaryName : String
  description : String
  donations : Ledger
deriving DecidableEq, Repr

/-- Modelled from the spec: `STORAGE_COST` is exported by `src/model.ts`,
which is not part of the sources here.  The spec (§3) fixes it only as a
positive fixed Amount constant ("minimum deposit required to cover the
marginal storage" of one donor record); we use the standard NEAR
donation-example value of 0.001 NEAR = 10^21 yoctoNEAR.  No theorem below
depends on the particular value, only on it being a fixed constant. -/
def STORAGE_COST : Nat := 1000000000000000000000

deriving instance DecidableEq for Except

/-- Model of `init`: constructs the contract state with the descriptive fields
and an empty ledger (`requireInit: true` makes this the unique initial
state of every execution). -/
def init (beneficiary beneficiaryName description : String) : State :=
  { beneficiary, beneficiaryName, description, donations := [] }

/-- Result of a successful `donate` call: the new state, the one outbound
transfer (`promiseBatchCreate(beneficiary)` + `promiseBatchActionTransfer`),
and the returned string `donatedSoFar.toString()`. -/
structure DonateResult where
  state : State
  transferTo : String
  transferAmount : Nat
  returnValue : String
deriving DecidableEq, Repr

/-- Model of `donate()`: `donor` is `near.predecessorAccountId()` and
`donationAmount` is `near.attachedDeposit()`.  Looks up `donatedSoFar`
(default 0); on a first donation asserts
`donationAmount > STORAGE_COST` and deducts `STORAGE_COST` from the
transferred amount; records `donatedSoFar + donationAmount` and transfers
`toTransfer` to the beneficiary. -/
def donate (st : State) (donor : String) (donationAmount : Nat) :
    Except Err DonateResult :=
  let donatedSoFar := (mapGet st.donations donor).getD 0
  if donatedSoFar = 0 ∧ ¬ STORAGE_COST < donationAmount then
    -- the `assert` in the first-donation branch fails
    .error .insufficientForStorage
  else
    let toTransfer := if donatedSoFar = 0
      then donationAmount - STORAGE_COST else donationAmount
    let newTotal := donatedSoFar + donationAmount
    .ok { state := { st with donations := mapSet st.donations donor newTotal }
          transferTo := st.beneficiary
          transferAmount := toTransfer
          returnValue := toString newTotal }

/-- Model of `change_beneficiary(beneficiary, beneficiaryName, description)`:
guarded by `assert(near.sender == near.contractName, ...)` (first revision;
the second revision relies on the `privateFunction: true` decorator, which
enforces the same caller-is-the-contract-account check), then overwrites
the three descriptive fields. -/
def change_beneficiary (st : State) (sender contractName : String)
    (beneficiary beneficiaryName description : String) : Except Err State :=
  if sender = contractName then
    .ok { st with beneficiary, beneficiaryName, description }
  else
    .error .unauthorized

/-- Model of `reset_donations()`: guarded like `change_beneficiary`, then
`this.donations.clear()`. -/
def reset_donations (st : State) (sender contractName : String) :
    Except Err State :=
  if sender = contractName then
    .ok { st with donations := [] }
  else
    .error .unauthorized

/-- States reachable by any sequence of successful `init`, `donate`,
`change_beneficiary`, `reset_donations` calls (a call that throws leaves
the state unchanged, so failed calls add no reachable states). -/
inductive Reachable : State → Prop where
  | init (b n d : String) : Reachable (init b n d)
  | donate {s : State} (donor : String) (amt : Nat) {r : DonateResult} :
      Reachable s → donate s donor amt = .ok r → Reachable r.state
  | change {s : State} (sender c b n d : String) {s' : State} :
      Reachable s → change_beneficiary s sender c b n d = .ok s' →
      Reachable s'
  | reset {s : State} (sender c : String) {s' : State} :
      Reachable s → reset_donations s sender c = .ok s' → Reachable s'

-- ============ View functions ================

/-- Model of `number_of_donors()`: `this.donations.length`. -/
def number_of_donors (st : State) : Nat :=
  st.donations.length

/-- A `Donation` record as returned by the view functions
(`src/model.ts`: `{ account_id: string, total_amount: string }`). -/
structure Donation where
  account_id : String
  total_amount : String
deriving DecidableEq, Repr

/-- Model of `get_donation_for_account({account_id})`: the stored amount as a
decimal string; the JavaScript truthiness test
`total_amount ? total_amount.toString() : "0"` yields `"0"` both when the
key is absent (`null`) and when the stored bigint is `0n`. -/
def get_donation_for_account (st : State) (account_id : String) : Donation :=
  { account_id
    total_amount :=
      match mapGet st.donations account_id with
      | some v => if v = 0 then "0" else toString v
      | none => "0" }

/-- Model of `get_donations({from_index = 0, limit = 50})`: clamps the start
to the ledger size (`Math.min`), then maps
`get_donation_for_account` over `keys({start: startIndex, limit})`. -/
def get_donations (st : State) (from_index limit : Nat) : List Donation :=
  let startIndex := min from_index st.donations.length
  (mapKeys st.donations startIndex limit).map
    (fun account_id => get_donation_for_account st account_id)

/-- Model of `get_total_donated()`: sums `this.donations.values()` into a
accumulator and returns its decimal string. -/
def get_total_donated (st : State) : String :=
  toString ((st.donations.map Prod.snd).foldl (· + ·) 0)

-- ============ IEEE 754 model for get_top_five_donors ================

/-- Number of binary digits of `n` (`0` for `0`), by fuel recursion so the
kernel can evaluate it (`n` itself is always enough fuel). -/
def bitLenAux : Nat → Nat → Nat
  | 0, _ => 0
  | fuel + 1, n => if n = 0 then 0 else bitLenAux fuel (n / 2) + 1

/-- Bit length of a natural number. -/
def bitLen (n : Nat) : Nat := bitLenAux n n

/-- The nearest IEEE 754 binary64 value to the natural number `n`
(round-to-nearest, ties-to-even), as a natural number.  Integers of at most
53 bits are exact; larger ones are rounded to a multiple of
`2 ^ (bitLen n - 53)`.  Exact for every `n` below the binary64 overflow
threshold (far above any 128-bit amount). -/
def toDouble (n : Nat) : Nat :=
  if n < 2 ^ 53 then n
  else
    let k := bitLen n - 53
    let q := n / 2 ^ k
    let r := n % 2 ^ k
    let half := 2 ^ (k - 1)
    if r < half then q * 2 ^ k
    else if half < r then (q + 1) * 2 ^ k
    else if q % 2 = 0 then q * 2 ^ k else (q + 1) * 2 ^ k

/-- Value of a list of decimal digit characters, most significant first. -/
def parseDigits : List Char → Nat → Nat
  | [], acc => acc
  | c :: cs, acc => parseDigits cs (acc * 10 + (c.toNat - 48))

/-- Model of `Number.parseFloat` on the strings the contract feeds it: every
`total_amount` string is the decimal numeral of a natural number
(`BigInt.prototype.toString` or the literal `"0"`), which `parseFloat`
parses in full and rounds to the nearest binary64 value. -/
def jsParseFloat (s : String) : Nat :=
  toDouble (parseDigits s.data 0)

/-- The comparator's sort key of a record:
`Number.parseFloat(d.total_amount)`.  The comparator
`(a, b) => parseFloat(b.total_amount) - parseFloat(a.total_amount)` orders
by this key descending; binary64 subtraction of two doubles always has the
exact sign of the true difference, so comparing keys is exact. -/
def sortKey (d : Donation) : Nat := jsParseFloat d.total_amount

/-- Insert `x` below every already-placed element whose key is at least
`sortKey x` (on a tie the earlier element stays first). -/
def sortInsert (x : Donation) : List Donation → List Donation
  | [] => [x]
  | y :: ys =>
    if sortKey x ≤ sortKey y then y :: sortInsert x ys else x :: y :: ys

/-- Model of `Array.prototype.sort` with the descending-float comparator:
stable (required by ECMAScript 2019 and later), so elements with equal
keys keep their original relative order. -/
def jsSort (l : List Donation) : List Donation :=
  l.foldl (fun acc x => sortInsert x acc) []

/-- Model of `get_top_five_donors()`: builds a record for every ledger key
(`keys({start: 0, limit: this.donations.length})`), sorts with the
`parseFloat` comparator, and truncates to 5 entries when longer. -/
def get_top_five_donors (st : State) : List Donation :=
  let ret := (mapKeys st.donations 0 st.donations.length).map
    (fun account_id => get_donation_for_account st account_id)
  let sorted := jsSort ret
  if 5 < sorted.length then sorted.take 5 else sorted

-- ============ Statistics (spec-modelled) ================

/-- The record returned by `get_donation_statistics` per spec §4.2. -/
structure DonationStatistics where
  total_donors : Nat
  total_donated : Nat
  average_donation : Nat
deriving DecidableEq, Repr

/-- Modelled from the spec: no `get_donation_statistics` method appears in
`src/contract-ts/src/contract.ts` (either revision) or anywhere else in the
sources; spec §4.2 specifies it as returning
`{ total_donors, total_donated, average_donation }` with
`average_donation = floor(total_donated / total_donors)` by integer
division and `0` when `total_donors = 0`. -/
def get_donation_statistics (st : State) : DonationStatistics :=
  let total_donors := st.donations.length
  let total_donated := (st.donations.map Prod.snd).foldl (· + ·) 0
  { total_donors
    total_donated
    average_donation :=
      if total_donors = 0 then 0 else total_donated / total_donors }

-- ============ Helper lemmas on the ledger model ================

theorem foldl_add_eq_add_sum (l : List Nat) (a : Nat) :
    l.foldl (· + ·) a = a + l.sum := by
  induction l generalizing a with
  | nil => simp
  | cons x xs ih => simp [List.foldl_cons, ih, List.sum_cons, Nat.add_assoc]

theorem mem_mapSet {m : Ledger} {k : String} {v : Nat} {e : String × Nat}
    (he : e ∈ mapSet m k v) : e = (k, v) ∨ e ∈ m := by
  induction m with
  | nil => simpa [mapSet] using he
  | cons a rest ih =>
    simp only [mapSet] at he
    split at he
    · rcases List.mem_cons.1 he with h | h
      · exact .inl h
      · exact .inr (List.mem_cons_of_mem _ h)
    · rcases List.mem_cons.1 he with h | h
      · exact .inr (h ▸ List.mem_cons_self _ _)
      · rcases ih h with h' | h'
        · exact .inl h'
        · exact .inr (List.mem_cons_of_mem _ h')

theorem mapGet_cons (a : String × Nat) (rest : Ledger) (k : String) :
    mapGet (a :: rest) k = if a.1 = k then some a.2 else mapGet rest k := by
  by_cases h : a.1 = k <;> simp [mapGet, List.find?_cons, h]

theorem mapGet_mem {m : Ledger} {k : String} {v : Nat}
    (h : mapGet m k = some v) : (k, v) ∈ m := by
  induction m with
  | nil => cases h
  | cons a rest ih =>
    obtain ⟨a1, a2⟩ := a
    rw [mapGet_cons] at h
    split at h
    · rename_i hak
      obtain rfl : a1 = k := hak
      obtain rfl : a2 = v := by injection h
      exact List.mem_cons_self _ _
    · exact List.mem_cons_of_mem _ (ih h)

theorem mapSet_same {m : Ledger} {k : String} {v : Nat}
    (h : mapGet m k = some v) : mapSet m k v = m := by
  induction m with
  | nil => cases h
  | cons a rest ih =>
    rw [mapGet_cons] at h
    simp only [mapSet]
    split
    · rename_i hak
      obtain rfl : a.2 = v := by rw [if_pos hak] at h; injection h
      have : (k, a.2) = a := by cases a; simp_all
      rw [this]
    · rename_i hak
      rw [if_neg hak] at h
      rw [ih h]

-- ============ Claim theorems ================

/-- C1: in every reachable state (any sequence of `init`, `donate`,
`change_beneficiary`, `reset_donations` calls), `get_total_donated` returns
exactly the decimal string of the sum of the cumulative amounts of all
entries of the donations ledger. -/
theorem total_donated_eq_sum_of_reachable (s : State) (_hs : Reachable s) :
    get_total_donated s = toString (s.donations.map Prod.snd).sum := by
  unfold get_total_donated
  rw [foldl_add_eq_add_sum, Nat.zero_add]

/-- Witness for C1 at a concrete reachable state. -/
theorem total_donated_eq_sum_witness :
    Reachable (init "b.testnet" "B" "d") ∧
    get_total_donated (init "b.testnet" "B" "d") =
      toString ((init "b.testnet" "B" "d").donations.map Prod.snd).sum :=
  ⟨Reachable.init "b.testnet" "B" "d",
   total_donated_eq_sum_of_reachable _ (Reachable.init "b.testnet" "B" "d")⟩

/-- C2: a caller with no recorded donation (prior amount 0) who attaches
exactly `STORAGE_COST` fails with `InsufficientForStorage`; attaching
`STORAGE_COST + 1` succeeds, transfers exactly 1 to the beneficiary, and
records the caller's cumulative total as `STORAGE_COST + 1`. -/
theorem first_donation_rule (st : State) (donor : String)
    (h : (mapGet st.donations donor).getD 0 = 0) :
    donate st donor STORAGE_COST = .error .insufficientForStorage ∧
    donate st donor (STORAGE_COST + 1) = .ok
      { state :=
          { st with donations := mapSet st.donations donor (STORAGE_COST + 1) }
        transferTo := st.beneficiary
        transferAmount := 1
        returnValue := toString (STORAGE_COST + 1) } := by
  constructor
  · simp [donate, h]
  · have h1 : STORAGE_COST + 1 - STORAGE_COST = 1 := by omega
    simp only [donate, h]
    rw [if_neg (by omega)]
    simp [Nat.zero_add, h1]

/-- Witness for C2: the initial state and a fresh donor. -/
theorem first_donation_rule_witness :
    (mapGet (init "b" "n" "d").donations "alice").getD 0 = 0 ∧
    (donate (init "b" "n" "d") "alice" STORAGE_COST =
        .error .insufficientForStorage ∧
      donate (init "b" "n" "d") "alice" (STORAGE_COST + 1) = .ok
        { state := { init "b" "n" "d" with
            donations := mapSet (init "b" "n" "d").donations "alice"
              (STORAGE_COST + 1) }
          transferTo := (init "b" "n" "d").beneficiary
          transferAmount := 1
          returnValue := toString (STORAGE_COST + 1) }) :=
  ⟨rfl, first_donation_rule (init "b" "n" "d") "alice" rfl⟩

/-- C3: a caller with a strictly positive recorded prior amount never has
the storage cost deducted again: the transfer equals the full attached
amount and the recorded cumulative total becomes `prior + attached`. -/
theorem repeat_donation_rule (st : State) (donor : String) (p : Nat)
    (hp : mapGet st.donations donor = some p) (hpos : 0 < p) (amt : Nat) :
    donate st donor amt = .ok
      { state := { st with donations := mapSet st.donations donor (p + amt) }
        transferTo := st.beneficiary
        transferAmount := amt
        returnValue := toString (p + amt) } := by
  simp only [donate, hp, Option.getD_some]
  rw [if_neg (by omega)]
  rw [if_neg (by omega)]

/-- Witness for C3 at a concrete state with a recorded donor. -/
theorem repeat_donation_rule_witness :
    mapGet [("alice", STORAGE_COST + 1)] "alice" = some (STORAGE_COST + 1) ∧
    0 < STORAGE_COST + 1 ∧
    donate
        { beneficiary := "b", beneficiaryName := "n", description := "d",
          donations := [("alice", STORAGE_COST + 1)] } "alice" 50 = .ok
      { state :=
          { beneficiary := "b", beneficiaryName := "n", description := "d",
            donations := mapSet [("alice", STORAGE_COST + 1)] "alice"
              (STORAGE_COST + 1 + 50) }
        transferTo := "b"
        transferAmount := 50
        returnValue := toString (STORAGE_COST + 1 + 50) } :=
  ⟨by decide, by decide,
   repeat_donation_rule
     { beneficiary := "b", beneficiaryName := "n", description := "d",
       donations := [("alice", STORAGE_COST + 1)] }
     "alice" (STORAGE_COST + 1) (by decide) (by decide) 50⟩

/-- C4 fails on the code: `get_top_five_donors` sorts with the comparator
`Number.parseFloat(b.total_amount) - Number.parseFloat(a.total_amount)`,
and `parseFloat` rounds amounts beyond 2^53 to the nearest binary64 value,
collapsing distinct amounts.  Here bob's amount is strictly larger than
alice's (both exceed `STORAGE_COST`, so such a ledger also arises from real
donations), both round to the same double, and the stable sort leaves
earlier-inserted alice first — the result is not sorted by descending
cumulative amount. -/
theorem top_five_not_sorted_by_amount :
    STORAGE_COST < 10 ^ 21 + 131072 ∧
    (10 : Nat) ^ 21 + 131072 < 10 ^ 21 + 131073 ∧
    get_top_five_donors
        { beneficiary := "b", beneficiaryName := "n", description := "d",
          donations :=
            [("alice", 10 ^ 21 + 131072), ("bob", 10 ^ 21 + 131073)] } =
      [{ account_id := "alice", total_amount := "1000000000000000131072" },
       { account_id := "bob", total_amount := "1000000000000000131073" }] := by
  refine ⟨by decide, by decide, by decide⟩

/-- C5: `get_donations(from_index, limit)` returns exactly
`min limit (donor_count - from_index)` entries (truncated subtraction, so
a start index beyond the donor count yields the empty list), and they are
the ledger's keys from position `from_index` on, in insertion order. -/
theorem get_donations_pagination (st : State) (N L : Nat) :
    (get_donations st N L).length = min L (st.donations.length - N) ∧
    (get_donations st N L).map Donation.account_id =
      ((st.donations.map Prod.fst).drop N).take L := by
  have hdrop : (st.donations.map Prod.fst).drop (min N st.donations.length) =
      (st.donations.map Prod.fst).drop N := by
    rcases Nat.le_total N st.donations.length with hle | hge
    · rw [Nat.min_eq_left hle]
    · rw [Nat.min_eq_right hge]
      rw [List.drop_eq_nil_of_le (by simp),
        List.drop_eq_nil_of_le (by simpa using hge)]
  constructor
  · simp [get_donations, mapKeys, hdrop, List.length_take, List.length_drop]
  · simp only [get_donations, mapKeys, hdrop, List.map_map]
    have : Donation.account_id ∘ (fun a => get_donation_for_account st a) =
        id := by
      funext a
      rfl
    rw [this, List.map_id]

/-- C6: `get_donation_statistics` (modelled from the spec, see its
definition) returns `{ total_donors, total_donated, average_donation }`
with `average_donation` the integer-division floor of
`total_donated / total_donors` when there are donors — characterised here
by the floor inequalities — and 0 when there are none (no division by
zero). -/
theorem donation_statistics_average (st : State) :
    ((get_donation_statistics st).total_donors = 0 →
      (get_donation_statistics st).average_donation = 0) ∧
    (0 < (get_donation_statistics st).total_donors →
      (get_donation_statistics st).total_donors *
          (get_donation_statistics st).average_donation ≤
        (get_donation_statistics st).total_donated ∧
      (get_donation_statistics st).total_donated <
        (get_donation_statistics st).total_donors *
          ((get_donation_statistics st).average_donation + 1)) := by
  constructor
  · intro h0
    have hd : st.donations.length = 0 := h0
    simp [get_donation_statistics, hd]
  · intro hpos
    have hd2 : st.donations.length ≠ 0 := Nat.pos_iff_ne_zero.mp hpos
    have hpos2 : 0 < st.donations.length := Nat.pos_of_ne_zero hd2
    simp only [get_donation_statistics, if_neg hd2]
    constructor
    · calc st.donations.length *
            ((st.donations.map Prod.snd).foldl (· + ·) 0 /
              st.donations.length) =
          (st.donations.map Prod.snd).foldl (· + ·) 0 /
              st.donations.length * st.donations.length :=
            Nat.mul_comm _ _
        _ ≤ (st.donations.map Prod.snd).foldl (· + ·) 0 :=
            Nat.div_mul_le_self _ _
    · have h3 := (Nat.div_lt_iff_lt_mul hpos2).mp
        (Nat.lt_succ_self
          ((st.donations.map Prod.snd).foldl (· + ·) 0 /
            st.donations.length))
      calc (st.donations.map Prod.snd).foldl (· + ·) 0 <
          ((st.donations.map Prod.snd).foldl (· + ·) 0 /
              st.donations.length + 1) * st.donations.length := h3
        _ = st.donations.length *
            ((st.donations.map Prod.snd).foldl (· + ·) 0 /
              st.donations.length + 1) := Nat.mul_comm _ _

/-- Witness for C6 at a two-donor state (both implications discharged, the
second also at the empty initial state). -/
theorem donation_statistics_average_witness :
    (0 < (get_donation_statistics
        { beneficiary := "b", beneficiaryName := "n", description := "d",
          donations := [("a", 7), ("b", 4)] }).total_donors ∧
      (get_donation_statistics
          { beneficiary := "b", beneficiaryName := "n", description := "d",
            donations := [("a", 7), ("b", 4)] }).total_donors *
          (get_donation_statistics
            { beneficiary := "b", beneficiaryName := "n", description := "d",
              donations := [("a", 7), ("b", 4)] }).average_donation ≤
        (get_donation_statistics
          { beneficiary := "b", beneficiaryName := "n", description := "d",
            donations := [("a", 7), ("b", 4)] }).total_donated ∧
      (get_donation_statistics
          { beneficiary := "b", beneficiaryName := "n", description := "d",
            donations := [("a", 7), ("b", 4)] }).total_donated <
        (get_donation_statistics
            { beneficiary := "b", beneficiaryName := "n", description := "d",
              donations := [("a", 7), ("b", 4)] }).total_donors *
          ((get_donation_statistics
            { beneficiary := "b", beneficiaryName := "n", description := "d",
              donations := [("a", 7), ("b", 4)] }).average_donation + 1)) ∧
    ((get_donation_statistics (init "b" "n" "d")).total_donors = 0 ∧
      (get_donation_statistics (init "b" "n" "d")).average_donation = 0) :=
  ⟨⟨by decide,
    (donation_statistics_average
      { beneficiary := "b", beneficiaryName := "n", description := "d",
        donations := [("a", 7), ("b", 4)] }).2 (by decide)⟩,
   ⟨by decide,
    (donation_statistics_average (init "b" "n" "d")).1 (by decide)⟩⟩

/-- C7 counterexample: the code has no `InvalidAmount` check.  From a
reachable state (init, then a first donation of `STORAGE_COST + 1` by
alice), alice donating 0 does not fail: it succeeds, transfers 0 to the
beneficiary, and leaves her recorded total unchanged. -/
theorem donate_zero_succeeds_for_repeat_donor :
    Reachable { beneficiary := "b", beneficiaryName := "n",
                description := "d",
                donations := [("alice", STORAGE_COST + 1)] } ∧
    donate { beneficiary := "b", beneficiaryName := "n", description := "d",
             donations := [("alice", STORAGE_COST + 1)] } "alice" 0 =
      .ok { state := { beneficiary := "b", beneficiaryName := "n",
                       description := "d",
                       donations := [("alice", STORAGE_COST + 1)] }
            transferTo := "b"
            transferAmount := 0
            returnValue := "1000000000000000000001" } := by
  constructor
  · exact Reachable.donate "alice" (STORAGE_COST + 1)
      (Reachable.init "b" "n" "d")
      (show donate (init "b" "n" "d") "alice" (STORAGE_COST + 1) =
          Except.ok
            { state := { beneficiary := "b", beneficiaryName := "n",
                         description := "d",
                         donations := [("alice", STORAGE_COST + 1)] }
              transferTo := "b"
              transferAmount := 1
              returnValue := "1000000000000000000001" }
        from by decide)
  · decide

/-- C7 amended: donating 0 from a caller with no recorded donation fails
(with the storage-cost error, not a dedicated `InvalidAmount`); from a
caller with a recorded positive total it succeeds, transfers 0, and leaves
the ledger unchanged. -/
theorem donate_zero_behavior (st : State) (donor : String) :
    donate st donor 0 =
      (if (mapGet st.donations donor).getD 0 = 0 then
        .error .insufficientForStorage
      else
        .ok { state := st
              transferTo := st.beneficiary
              transferAmount := 0
              returnValue :=
                toString ((mapGet st.donations donor).getD 0) }) := by
  by_cases h : (mapGet st.donations donor).getD 0 = 0
  · simp [donate, h]
  · rw [if_neg h]
    obtain ⟨p, hp⟩ : ∃ p, mapGet st.donations donor = some p := by
      cases hm : mapGet st.donations donor
      · exact absurd (by simp [hm]) h
      · exact ⟨_, rfl⟩
    have hp0 : p ≠ 0 := by
      intro h0
      exact h (by simp [hp, h0])
    simp only [donate, hp, Option.getD_some]
    rw [if_neg (by exact fun hc => hp0 hc.1)]
    rw [if_neg hp0]
    have hset : mapSet st.donations donor p = st.donations :=
      mapSet_same hp
    simp [hset]

/-- C8: after a successful `reset_donations`, `number_of_donors` is 0,
`get_total_donated` is `"0"`, and any donor — previously recorded or not —
is treated as a brand-new first donor: at most `STORAGE_COST` fails, more
than `STORAGE_COST` succeeds with the storage cost deducted again. -/
theorem reset_clears_and_reapplies_storage_cost
    (st : State) (sender c : String) (st2 : State)
    (h : reset_donations st sender c = .ok st2) :
    number_of_donors st2 = 0 ∧
    get_total_donated st2 = "0" ∧
    (∀ donor amt, ¬ STORAGE_COST < amt →
      donate st2 donor amt = .error .insufficientForStorage) ∧
    (∀ donor amt, STORAGE_COST < amt →
      donate st2 donor amt = .ok
        { state := { st2 with donations := [(donor, amt)] }
          transferTo := st2.beneficiary
          transferAmount := amt - STORAGE_COST
          returnValue := toString amt }) := by
  have hst : st2.donations = [] := by
    unfold reset_donations at h
    split at h
    · cases h; rfl
    · cases h
  refine ⟨?_, ?_, ?_, ?_⟩
  · simp [number_of_donors, hst]
  · rw [get_total_donated, hst]
    rfl
  · intro donor amt hamt
    have hget : mapGet st2.donations donor = none := by simp [mapGet, hst]
    simp [donate, hget, hamt]
  · intro donor amt hamt
    have hget : mapGet st2.donations donor = none := by simp [mapGet, hst]
    simp only [donate, hget, Option.getD_none]
    rw [if_neg (by exact fun hc => hc.2 hamt)]
    simp [hst, mapSet]

/-- Witness for C8: a concrete reset by the contract account, followed by a
failing and a succeeding first donation from the previously recorded
donor. -/
theorem reset_clears_witness :
    reset_donations
        { beneficiary := "b", beneficiaryName := "n", description := "d",
          donations := [("alice", STORAGE_COST + 1)] } "don.testnet"
        "don.testnet" =
      .ok { beneficiary := "b", beneficiaryName := "n", description := "d",
            donations := [] } ∧
    number_of_donors
        { beneficiary := "b", beneficiaryName := "n", description := "d",
          donations := [] } = 0 ∧
    get_total_donated
        { beneficiary := "b", beneficiaryName := "n", description := "d",
          donations := [] } = "0" ∧
    donate { beneficiary := "b", beneficiaryName := "n", description := "d",
             donations := [] } "alice" STORAGE_COST =
      .error .insufficientForStorage ∧
    donate { beneficiary := "b", beneficiaryName := "n", description := "d",
             donations := [] } "alice" (STORAGE_COST + 1) = .ok
      { state := { beneficiary := "b", beneficiaryName := "n",
                   description := "d",
                   donations := [("alice", STORAGE_COST + 1)] }
        transferTo := "b"
        transferAmount := STORAGE_COST + 1 - STORAGE_COST
        returnValue := toString (STORAGE_COST + 1) } := by
  have h : reset_donations
      { beneficiary := "b", beneficiaryName := "n", description := "d",
        donations := [("alice", STORAGE_COST + 1)] } "don.testnet"
      "don.testnet" =
    .ok { beneficiary := "b", beneficiaryName := "n", description := "d",
          donations := [] } := by decide
  have hc := reset_clears_and_reapplies_storage_cost _ _ _ _ h
  exact ⟨h, hc.1, hc.2.1,
    hc.2.2.1 "alice" STORAGE_COST (by decide),
    hc.2.2.2 "alice" (STORAGE_COST + 1) (by decide)⟩

/-- C9: any caller other than the contract's own account fails the
`sender == contractName` guard of `change_beneficiary` and
`reset_donations` with the unauthorized error; an error carries no
successor state, so no contract state changes. -/
theorem private_functions_unauthorized (st : State)
    (sender c b n d : String) (h : sender ≠ c) :
    change_beneficiary st sender c b n d = .error .unauthorized ∧
    reset_donations st sender c = .error .unauthorized := by
  constructor
  · unfold change_beneficiary
    rw [if_neg h]
  · unfold reset_donations
    rw [if_neg h]

/-- Witness for C9 with a concrete non-owner caller. -/
theorem private_functions_unauthorized_witness :
    ("mallory.testnet" : String) ≠ "don.testnet" ∧
    (change_beneficiary (init "b" "n" "d") "mallory.testnet" "don.testnet"
        "b2" "n2" "d2" = .error .unauthorized ∧
      reset_donations (init "b" "n" "d") "mallory.testnet" "don.testnet" =
        .error .unauthorized) :=
  ⟨by decide,
   private_functions_unauthorized (init "b" "n" "d") "mallory.testnet"
     "don.testnet" "b2" "n2" "d2" (by decide)⟩

/-- C10: in every reachable state, every amount stored in the ledger
strictly exceeds `STORAGE_COST` (in particular it is nonzero), so the `"0"`
fallback of the truthiness test in `get_donation_for_account` is taken only
for accounts absent from the ledger: for every present account the stored
value is nonzero and the non-fallback branch `total_amount.toString()` is
returned. -/
theorem ledger_amounts_exceed_storage_cost (s : State) (hs : Reachable s) :
    (∀ e ∈ s.donations, STORAGE_COST < e.2) ∧
    (∀ acc v, mapGet s.donations acc = some v →
      v ≠ 0 ∧ (get_donation_for_account s acc).total_amount = toString v) := by
  have hmain : ∀ e ∈ s.donations, STORAGE_COST < e.2 := by
    induction hs with
    | init b n d =>
      intro e he
      simp [init] at he
    | @donate s donor amt r hr hok ih =>
      simp only [donate] at hok
      split at hok
      · cases hok
      · rename_i hcond
        cases hok
        intro e he
        rcases mem_mapSet he with rfl | hmem
        · by_cases hp : (mapGet s.donations donor).getD 0 = 0
          · rw [hp] at hcond ⊢
            have hamt : STORAGE_COST < amt := by
              by_contra hno
              exact hcond ⟨rfl, hno⟩
            simpa using hamt
          · obtain ⟨p, hpe⟩ : ∃ p, mapGet s.donations donor = some p := by
              cases hm : mapGet s.donations donor
              · exact absurd (by simp [hm]) hp
              · exact ⟨_, rfl⟩
            have hlt := ih _ (mapGet_mem hpe)
            rw [hpe]
            simp only [Option.getD_some]
            omega
        · exact ih _ hmem
    | @change s sender c b n d s2 hr hok ih =>
      unfold change_beneficiary at hok
      split at hok
      · cases hok
        intro e he
        exact ih _ he
      · cases hok
    | @reset s sender c s2 hr hok ih =>
      unfold reset_donations at hok
      split at hok
      · cases hok
        intro e he
        simp at he
      · cases hok
  refine ⟨hmain, ?_⟩
  intro acc v hv
  have hlt := hmain _ (mapGet_mem hv)
  have hv0 : v ≠ 0 := by
    intro h0
    rw [h0] at hlt
    exact absurd hlt (Nat.not_lt_zero _)
  refine ⟨hv0, ?_⟩
  simp [get_donation_for_account, hv, hv0]

/-- Witness for C10 at a concrete reachable state with one recorded
donor. -/
theorem ledger_amounts_witness :
    Reachable { beneficiary := "b", beneficiaryName := "n",
                description := "d",
                donations := [("alice", STORAGE_COST + 1)] } ∧
    ((∀ e ∈ ([("alice", STORAGE_COST + 1)] : Ledger),
        STORAGE_COST < e.2) ∧
      (∀ acc v, mapGet [("alice", STORAGE_COST + 1)] acc = some v →
        v ≠ 0 ∧
        (get_donation_for_account
          { beneficiary := "b", beneficiaryName := "n", description := "d",
            donations := [("alice", STORAGE_COST + 1)] }
          acc).total_amount = toString v)) := by
  have hreach : Reachable { beneficiary := "b", beneficiaryName := "n",
                            description := "d",
                            donations := [("alice", STORAGE_COST + 1)] } :=
    Reachable.donate "alice" (STORAGE_COST + 1)
      (Reachable.init "b" "n" "d")
      (show donate (init "b" "n" "d") "alice" (STORAGE_COST + 1) =
          Except.ok
            { state := { beneficiary := "b", beneficiaryName := "n",
                         description := "d",
                         donations := [("alice", STORAGE_COST + 1)] }
              transferTo := "b"
              transferAmount := 1
              returnValue := "1000000000000000000001" }
        from by decide)
  exact ⟨hreach, ledger_amounts_exceed_storage_cost _ hreach⟩
